import Mathlib

/-!
Verification of the personal-assistant application (`src/app.py`).

The Python source is shallowly embedded: each persistent JSON table becomes
an explicit Lean value (a list or an `Option` record), each Python function
that the claims depend on becomes a Lean function on those values, and the
side effects of scheduler jobs (outgoing messages) become explicit event
lists returned by the transition functions.  Wall-clock time is modelled as
an absolute minute counter `t : Nat`; the calendar day of an instant is
`t / 1440`, which keeps "same date" and "minutes elapsed" consistent, and
`minutes_passed = (now - sent_at).total_seconds()/60` becomes integer
subtraction (the code only ever compares it against whole minutes).
-/

set_option autoImplicit false

namespace Assistant

/-- Minutes in one calendar day. -/
def minutesPerDay : Nat := 1440

/-- The calendar day of an absolute instant (minutes since epoch),
mirroring `datetime.now(TIMEZONE).strftime("%Y-%m-%d")`. -/
def dayOf (t : Nat) : Nat := t / minutesPerDay

/-! ## Conversation history (`add_to_conversation`, src/app.py:377-389) -/

/-- One chat message, as stored in `conversations.json`. -/
structure ChatMsg where
  role : String
  content : String
  deriving Repr, DecidableEq

/-- `add_to_conversation`: append the message, then keep only the last 50
entries (`conversations[user_id] = conversations[user_id][-50:]`). -/
def add_to_conversation (hist : List ChatMsg) (role content : String) : List ChatMsg :=
  let h := hist ++ [⟨role, content⟩]
  if 50 < h.length then h.drop (h.length - 50) else h

/-- The `messages=conversation` list that `get_ai_response` hands to the
conversation oracle (src/app.py:2540, 2544, 2863): the stored history is
loaded into a local `conversation` variable and the new user message is
appended to that LOCAL copy — separately from `add_to_conversation`, which
truncates only the stored table. -/
def oracle_messages (stored : List ChatMsg) (userMessage : String) :
    List ChatMsg :=
  stored ++ [⟨"user", userMessage⟩]

/-! ## Tasks (`add_task`, `complete_task`, `delete_task`, src/app.py:405-450) -/

structure Task where
  id : Nat
  text : String
  done : Bool
  deriving Repr, DecidableEq

/-- The `# Reordenar IDs` loop: `for i, task in enumerate(...): task["id"] = i+1`,
starting the count at `n`. -/
def renumberTasks (n : Nat) : List Task → List Task
  | [] => []
  | t :: ts => { t with id := n } :: renumberTasks (n + 1) ts

/-- `add_task`: the new task gets id `len(tasks[user_id]) + 1`. -/
def add_task (ts : List Task) (text : String) : List Task :=
  ts ++ [{ id := ts.length + 1, text := text, done := false }]

/-- `complete_task` on the user's task list: mark the first task whose id
matches and report success; report failure if none matches. -/
def completeTaskList : List Task → Nat → List Task × Bool
  | [], _ => ([], false)
  | t :: ts, i =>
    if t.id = i then ({ t with done := true } :: ts, true)
    else
      let r := completeTaskList ts i
      (t :: r.1, r.2)

/-- `delete_task` on the user's task list: filter out the id, then renumber.
It reports success whenever the user has a task list, even if no task had
the requested id. -/
def deleteTaskList (ts : List Task) (i : Nat) : List Task :=
  renumberTasks 1 (ts.filter (fun t => t.id ≠ i))

/-! ## Notes (`delete_note`, src/app.py:497-506) -/

structure Note where
  id : Nat
  text : String
  deriving Repr, DecidableEq

def renumberNotes (n : Nat) : List Note → List Note
  | [] => []
  | t :: ts => { t with id := n } :: renumberNotes (n + 1) ts

/-- `delete_note`: filter out the id, then renumber. -/
def deleteNoteList (ns : List Note) (i : Nat) : List Note :=
  renumberNotes 1 (ns.filter (fun n => n.id ≠ i))

/-! ## Shopping list (`mark_item_bought`, `delete_shopping_item`,
src/app.py:986-1007) -/

structure ShoppingItem where
  id : Nat
  item : String
  bought : Bool
  deriving Repr, DecidableEq

def renumberShopping (n : Nat) : List ShoppingItem → List ShoppingItem
  | [] => []
  | t :: ts => { t with id := n } :: renumberShopping (n + 1) ts

/-- `mark_item_bought`: mark the first item whose id matches. -/
def markItemBoughtList : List ShoppingItem → Nat → List ShoppingItem × Bool
  | [], _ => ([], false)
  | t :: ts, i =>
    if t.id = i then ({ t with bought := true } :: ts, true)
    else
      let r := markItemBoughtList ts i
      (t :: r.1, r.2)

/-- `delete_shopping_item`: filter out the id, then renumber. -/
def deleteShoppingList (ss : List ShoppingItem) (i : Nat) : List ShoppingItem :=
  renumberShopping 1 (ss.filter (fun s => s.id ≠ i))

/-! ## Custom one-shot reminders (`add_reminder`, `mark_reminder_sent`,
`delete_reminder`, `check_and_send_custom_reminders`, src/app.py:868-949) -/

structure Reminder where
  id : Nat
  message : String
  remindAt : Nat   -- `remind_at`, an absolute minute instant
  sent : Bool
  deriving Repr, DecidableEq

/-- `delete_reminder`: filter out the id.  Unlike `delete_task` /
`delete_note` / `delete_shopping_item` there is NO renumbering loop here. -/
def deleteReminderList (rs : List Reminder) (i : Nat) : List Reminder :=
  rs.filter (fun r => r.id ≠ i)

/-- `mark_reminder_sent`: set `sent = True` on the FIRST reminder whose id
matches (the Python loop returns inside the `for`). -/
def markReminderSent : List Reminder → Nat → List Reminder
  | [], _ => []
  | r :: rs, i =>
    if r.id = i then { r with sent := true } :: rs
    else r :: markReminderSent rs i

/-- One pass of the loop body of `check_and_send_custom_reminders`
(src/app.py:928-949) for one user.  `iter` is the list loaded at the top of
the job (`reminders = load_reminders()`); `store` is the persistent table,
which `mark_reminder_sent` re-reads and re-writes on every send.  The
gateway `gw` is `send_whatsapp_message`, which returns `False` on failure
and never raises (src/app.py:2359-2370), so its result is IGNORED here:
`mark_reminder_sent` runs after every attempt, successful or not.  The
returned event list records each `(id, gw outcome)` attempt in order. -/
def checkRemindersLoop (now : Nat) (gw : Reminder → Bool) :
    List Reminder → List Reminder → List Reminder × List (Nat × Bool)
  | [], store => (store, [])
  | r :: rest, store =>
    if r.sent then checkRemindersLoop now gw rest store
    else if r.remindAt ≤ now then
      let outcome := gw r
      let next := checkRemindersLoop now gw rest (markReminderSent store r.id)
      (next.1, (r.id, outcome) :: next.2)
    else checkRemindersLoop now gw rest store

/-- `check_and_send_custom_reminders` for one user's reminder list. -/
def check_and_send_custom_reminders (rs : List Reminder) (now : Nat)
    (gw : Reminder → Bool) : List Reminder × List (Nat × Bool) :=
  checkRemindersLoop now gw rs rs

/-! ## Caregiver chain (`set_caregiver`, `remove_caregiver`, `get_caregiver`,
`get_all_caregivers`, `alert_all_caregivers`, src/app.py:1217-1314) -/

/-- One entry of `caregivers.json`: either the legacy bare-string format or
the `{"primary": ..., "primary_name": ..., "secondary": [...]}` dict. -/
inductive CaregiverEntry where
  | legacy (num : String)
  | chain (primary : Option String) (primaryName : Option String)
      (secondary : List String)
  deriving Repr, DecidableEq

/-- `if not caregiver_number.startswith("whatsapp:"): caregiver_number =
f"whatsapp:{caregiver_number}"`. -/
def normalizeNumber (n : String) : String :=
  if "whatsapp:".data.isPrefixOf n.data then n else "whatsapp:" ++ n

/-- `set_caregiver` on one user's entry (the dict lookup/default and the
legacy-format migration included). -/
def set_caregiver (entry : Option CaregiverEntry) (num : String)
    (isPrimary : Bool) (name : Option String) : CaregiverEntry :=
  let num := normalizeNumber num
  let e : Option String × Option String × List String :=
    match entry with
    | none => (none, none, [])
    | some (.legacy old) => (some old, none, [])
    | some (.chain p pn s) => (p, pn, s)
  match e with
  | (p, pn, s) =>
    if isPrimary then
      .chain (some num) (match name with | some n => some n | none => pn) s
    else
      .chain p pn (if num ∈ s then s else s ++ [num])

/-- `remove_caregiver`: removes the first occurrence of the number from the
secondary list; legacy entries and unknown numbers are untouched. -/
def remove_caregiver (entry : Option CaregiverEntry) (num : String) :
    Option CaregiverEntry × Bool :=
  let num := normalizeNumber num
  match entry with
  | some (.chain p pn s) =>
    if num ∈ s then (some (.chain p pn (s.erase num)), true)
    else (some (.chain p pn s), false)
  | e => (e, false)

/-- `get_caregiver`: the primary contact only. -/
def get_caregiver (entry : Option CaregiverEntry) : Option String :=
  match entry with
  | none => none
  | some (.legacy n) => some n
  | some (.chain p _ _) => p

/-- `get_all_caregivers`: primary (when present) followed by the secondary
contacts. -/
def get_all_caregivers (entry : Option CaregiverEntry) : List String :=
  match entry with
  | none => []
  | some (.legacy n) => [n]
  | some (.chain p _ s) =>
    (match p with | some x => [x] | none => []) ++ s

/-- `alert_all_caregivers`: one independent `send_whatsapp_message` attempt
per contact, inside its own `try`/`except`, so one contact's failure never
suppresses the remaining attempts; the result records every attempt. -/
def alert_all_caregivers (entry : Option CaregiverEntry)
    (gw : String → Bool) : List (String × Bool) :=
  (get_all_caregivers entry).map (fun c => (c, gw c))

/-- The secondary-contact list of an entry (empty for legacy/missing). -/
def secondariesOf (entry : Option CaregiverEntry) : List String :=
  match entry with
  | some (.chain _ _ s) => s
  | _ => []

/-- A caregiver-table operation, for stating chain invariants. -/
inductive CgOp where
  | set (num : String) (isPrimary : Bool) (name : Option String)
  | remove (num : String)
  deriving Repr

/-- Apply one operation to one user's entry. -/
def applyCgOp (entry : Option CaregiverEntry) : CgOp → Option CaregiverEntry
  | .set num p name => some (set_caregiver entry num p name)
  | .remove num => (remove_caregiver entry num).1

/-- Apply a sequence of operations starting from no entry. -/
def applyCgOps (ops : List CgOp) : Option CaregiverEntry :=
  ops.foldl applyCgOp none

/-! ## Medication confirmations (src/app.py:595-793, 2843-2853)

One user's slice of `medications.json` and
`pending_med_confirmations.json`.  The scheduler jobs iterate over users
independently, so the per-user transition captures them exactly. -/

/-- One entry of `meds[user]["log"]`. -/
structure MedLogEntry where
  date : Nat       -- calendar day of the intake
  period : String  -- "mañana" / "noche"
  deriving Repr, DecidableEq

/-- One entry of `pending_med_confirmations.json`. -/
structure PendingConf where
  period : String
  attempt : Nat
  sentAt : Nat   -- `sent_at`, absolute minutes
  date : Nat     -- `date`, calendar day stamped when the entry was written
  deriving Repr, DecidableEq

/-- One user's medication state. -/
structure MedUser where
  medications : List String
  log : List MedLogEntry
  pending : Option PendingConf
  deriving Repr, DecidableEq

/-- `check_medication_taken_today`: does the log hold an entry dated today
with this period? -/
def check_medication_taken_today (m : MedUser) (today : Nat)
    (period : String) : Bool :=
  m.log.any (fun e => e.date = today && e.period = period)

/-- `log_medication_taken`: append `{date: today, period}` and keep the last
120 log entries (`meds[user]["log"][-120:]`). -/
def log_medication_taken (m : MedUser) (now : Nat) (period : String) :
    MedUser :=
  let l := m.log ++ [{ date := dayOf now, period := period }]
  { m with log := if 120 < l.length then l.drop (l.length - 120) else l }

/-- `set_pending_confirmation`: overwrite the pending entry, stamping the
current instant and day. -/
def set_pending_confirmation (m : MedUser) (now : Nat) (period : String)
    (attempt : Nat) : MedUser :=
  { m with pending := some ⟨period, attempt, now, dayOf now⟩ }

/-- `get_pending_confirmation`: the stored entry, but only if its date
stamp is today. -/
def get_pending_confirmation (m : MedUser) (now : Nat) : Option PendingConf :=
  match m.pending with
  | some p => if p.date = dayOf now then some p else none
  | none => none

/-- `clear_pending_confirmation`. -/
def clear_pending_confirmation (m : MedUser) : MedUser :=
  { m with pending := none }

/-- Outgoing messages produced by the medication jobs for one user. -/
inductive MedEvent where
  /-- the first `¿Tomaste tus medicamentos?` reminder to the subject -/
  | firstReminder
  /-- the `Segundo aviso de medicamentos` to the subject -/
  | secondReminder
  /-- the `ALERTA: Medicamentos no confirmados` message to a caregiver -/
  | alert (dest : String)
  deriving Repr, DecidableEq

/-- `send_medication_reminder` for one user: if they have medications and no
intake is logged today for this period, send the first reminder and record a
pending confirmation with attempt 1.  (`send_whatsapp_message` never raises,
so the `set_pending_confirmation` after it always runs.) -/
def send_medication_reminder (m : MedUser) (now : Nat) (period : String) :
    MedUser × List MedEvent :=
  if m.medications ≠ [] then
    if ¬ check_medication_taken_today m (dayOf now) period then
      (set_pending_confirmation m now period 1, [.firstReminder])
    else (m, [])
  else (m, [])

/-- `check_medication_confirmations` for one user (src/app.py:741-793).
`cg` is the user's `caregivers.json` entry, read through `get_caregiver`
inside the attempt-2 branch.  Returns the new state and the messages sent.
(`send_whatsapp_message` returns `False` instead of raising, so the
`try`/`except` blocks around it never fire and the subsequent
`set_pending_confirmation` / `clear_pending_confirmation` always run.) -/
def check_medication_confirmations (m : MedUser) (now : Nat)
    (cg : Option CaregiverEntry) : MedUser × List MedEvent :=
  match m.pending with
  | none => (m, [])
  | some pending =>
    -- `if pending.get("date") != now.strftime("%Y-%m-%d"): clear; continue`
    if pending.date ≠ dayOf now then (clear_pending_confirmation m, [])
    -- `if check_medication_taken_today(...): clear; continue`
    else if check_medication_taken_today m (dayOf now) pending.period then
      (clear_pending_confirmation m, [])
    else
      let minutesPassed : Int := (now : Int) - (pending.sentAt : Int)
      if pending.attempt = 1 ∧ 5 ≤ minutesPassed then
        if m.medications ≠ [] then
          (set_pending_confirmation m now pending.period 2, [.secondReminder])
        else (m, [])
      else if pending.attempt = 2 ∧ 5 ≤ minutesPassed then
        let sends : List MedEvent :=
          match get_caregiver cg with
          | some c => [.alert c]
          | none => []
        (clear_pending_confirmation m, sends)
      else (m, [])

/-- The fixed confirmation vocabulary of `get_ai_response`
(src/app.py:2843). -/
def confirmationWords : List String :=
  ["si", "sí", "tome", "tomé", "si tome", "sí tomé", "ya tome", "ya tomé",
   "listo", "ok", "ya"]

/-- `msg_lower in confirmation_words or msg_lower.startswith("si ") or
msg_lower.startswith("sí ")`. -/
def isConfirmationMsg (msgLower : String) : Bool :=
  confirmationWords.contains msgLower
    || "si ".data.isPrefixOf msgLower.data
    || "sí ".data.isPrefixOf msgLower.data

/-- The medication-confirmation fragment of `get_ai_response`
(src/app.py:2842-2853): on a confirmation word with a same-day pending
confirmation, log the intake for the pending period and clear the pending
entry.  Returns `none` when the fragment does not apply (the request falls
through to the conversation oracle, which never touches this state). -/
def handle_confirmation_reply (m : MedUser) (now : Nat)
    (msgLower : String) : Option MedUser :=
  if isConfirmationMsg msgLower then
    match get_pending_confirmation m now with
    | some p =>
      some (clear_pending_confirmation (log_medication_taken m now p.period))
    | none => none
  else none

/-! ## Text scanning (`process_actions`, src/app.py:2084-2335)

Texts are modelled as `List Char`.  The patterns in `process_actions` all
have the shape `\[OPEN\](.*?)\[/OPEN\]` (lazy body, `DOTALL`): the leftmost
match starts at the first occurrence of the opening tag and its body ends at
the first occurrence of the closing tag after it.  A closing tag cannot
begin strictly inside an occurrence of the opening tag (their second
characters differ), so when no closing tag follows the first opening tag
there is no match anywhere, which the model returns as `none`. -/

/-- Raw text. -/
abbrev Txt := List Char

/-- Python `str.strip()` (ASCII whitespace). -/
def stripChars (s : Txt) : Txt :=
  ((s.dropWhile Char.isWhitespace).reverse.dropWhile Char.isWhitespace).reverse

/-- Index of the first occurrence of `pat` as a contiguous sublist. -/
def findSub (pat : Txt) : Txt → Option Nat
  | [] => if pat = [] then some 0 else none
  | c :: rest =>
    if pat.isPrefixOf (c :: rest) then some 0
    else (findSub pat rest).map (· + 1)

/-- One regex match of `\[OPEN\](.*?)\[/OPEN\]`. -/
structure TagMatch where
  start : Nat    -- index of the opening tag
  content : Txt  -- the text between the tags (regex group 1)
  stop : Nat     -- index just after the closing tag
  deriving Repr, DecidableEq

/-- `re.search` for a lazy bracket-pair pattern: first opening tag, then the
first closing tag after it. -/
def firstTag (openT closeT s : Txt) : Option TagMatch :=
  match findSub openT s with
  | none => none
  | some i =>
    let afterOpen := s.drop (i + openT.length)
    match findSub closeT afterOpen with
    | none => none
    | some k => some ⟨i, afterOpen.take k, i + openT.length + k + closeT.length⟩

/-- `re.sub(pattern, "", s)` with `count=0`: remove every non-overlapping
occurrence, scanning left to right.  Fuel-driven; `s.length` fuel always
suffices because each removal consumes at least the opening tag. -/
def subAllFuel (openT closeT : Txt) : Nat → Txt → Txt
  | 0, s => s
  | fuel + 1, s =>
    match firstTag openT closeT s with
    | none => s
    | some m => s.take m.start ++ subAllFuel openT closeT fuel (s.drop m.stop)

/-- `re.sub(pattern, "", s)`: remove all occurrences of the tag pair. -/
def subAll (openT closeT s : Txt) : Txt :=
  subAllFuel openT closeT s.length s

/-- Numeric value of a digit string (the regex body `(\d+)`). -/
def digitsToNat (s : Txt) : Nat :=
  s.foldl (fun n c => n * 10 + (c.toNat - '0'.toNat)) 0

/-- `re.search` for a `\[OPEN\](\d+)\[/OPEN\]` pattern.  Faithful for texts
whose first tag body is a nonempty digit string (the directive wire format);
a non-digit body would make the regex engine search for a later occurrence,
which is not modelled. -/
def firstNumTag (openT closeT s : Txt) : Option (TagMatch × Nat) :=
  match firstTag openT closeT s with
  | none => none
  | some m =>
    if m.content ≠ [] ∧ m.content.all Char.isDigit then
      some (m, digitsToNat m.content)
    else none

/-! ## The `process_actions` blocks used by the claims -/

/-- `add_task` on a possibly-missing per-user list (the
`if user_id not in tasks: tasks[user_id] = []` default). -/
def add_task_store (st : Option (List Task)) (text : String) : List Task :=
  add_task (st.getD []) text

/-- `complete_task` on the store: `False` when the user has no task list or
no task has the id; marks the first matching task otherwise. -/
def complete_task (st : Option (List Task)) (i : Nat) :
    Option (List Task) × Bool :=
  match st with
  | none => (none, false)
  | some ts =>
    let r := completeTaskList ts i
    (some r.1, r.2)

/-- `delete_task` on the store: reports `True` whenever the user has a task
list, even when no task carried the requested id. -/
def delete_task (st : Option (List Task)) (i : Nat) :
    Option (List Task) × Bool :=
  match st with
  | none => (none, false)
  | some ts => (some (deleteTaskList ts i), true)

/-- The `# Procesar agregar tarea` block (src/app.py:2101-2106): `re.search`
for the first `[TAREA_AGREGAR]` tag, add ONE task from its stripped body,
then `re.sub` ALL occurrences of the tag pair out of the text and append the
confirmation line. -/
def processTareaAgregar (s : Txt) (store : Option (List Task)) :
    Txt × Option (List Task) :=
  match firstTag "[TAREA_AGREGAR]".data "[/TAREA_AGREGAR]".data s with
  | none => (s, store)
  | some m =>
    let taskText := stripChars m.content
    (subAll "[TAREA_AGREGAR]".data "[/TAREA_AGREGAR]".data s
        ++ "\n\n✅ Tarea agregada: ".data ++ taskText,
      some (add_task_store store (String.mk taskText)))

/-- The `# Procesar completar tarea` block (src/app.py:2109-2116): success
strips the markup and appends a confirmation; failure leaves the markup in
place and appends a `No encontré` line. -/
def processTareaCompletar (s : Txt) (store : Option (List Task)) :
    Txt × Option (List Task) :=
  match firstNumTag "[TAREA_COMPLETAR]".data "[/TAREA_COMPLETAR]".data s with
  | none => (s, store)
  | some (_, taskId) =>
    let r := complete_task store taskId
    if r.2 then
      (subAll "[TAREA_COMPLETAR]".data "[/TAREA_COMPLETAR]".data s
          ++ ("\n\n✅ Tarea " ++ Nat.repr taskId ++ " completada").data, r.1)
    else
      (s ++ ("\n\n❌ No encontré la tarea " ++ Nat.repr taskId).data, r.1)

/-- The `# Procesar eliminar tarea` block (src/app.py:2119-2124): on success
strips the markup and appends a confirmation; there is NO `else` branch, so
when `delete_task` returns `False` (user has no task list) the directive is
silently ignored. -/
def processTareaEliminar (s : Txt) (store : Option (List Task)) :
    Txt × Option (List Task) :=
  match firstNumTag "[TAREA_ELIMINAR]".data "[/TAREA_ELIMINAR]".data s with
  | none => (s, store)
  | some (_, taskId) =>
    let r := delete_task store taskId
    if r.2 then
      (subAll "[TAREA_ELIMINAR]".data "[/TAREA_ELIMINAR]".data s
          ++ ("\n\n✅ Tarea " ++ Nat.repr taskId ++ " eliminada").data, r.1)
    else (s, r.1)

/-- `delete_reminder` on the store: reports `True` whenever the user has a
reminder list, even when no reminder carried the requested id, and does not
renumber. -/
def delete_reminder (st : Option (List Reminder)) (i : Nat) :
    Option (List Reminder) × Bool :=
  match st with
  | none => (none, false)
  | some rs => (some (deleteReminderList rs i), true)

/-- The `# Procesar eliminar recordatorio` block (src/app.py:2274-2282):
both branches strip the markup; the `No encontré` line appears only when
`delete_reminder` returns `False`, i.e. when the user has no reminder list
at all. -/
def processRecordatorioEliminar (s : Txt) (store : Option (List Reminder)) :
    Txt × Option (List Reminder) :=
  match firstNumTag "[RECORDATORIO_ELIMINAR]".data
      "[/RECORDATORIO_ELIMINAR]".data s with
  | none => (s, store)
  | some (_, rid) =>
    let r := delete_reminder store rid
    if r.2 then
      (subAll "[RECORDATORIO_ELIMINAR]".data "[/RECORDATORIO_ELIMINAR]".data s
          ++ ("\n\n✅ Recordatorio " ++ Nat.repr rid ++ " eliminado").data, r.1)
    else
      (subAll "[RECORDATORIO_ELIMINAR]".data "[/RECORDATORIO_ELIMINAR]".data s
          ++ ("\n\n❌ No encontré el recordatorio " ++ Nat.repr rid).data, r.1)

/-! ## Message chunking (`split_message`, `send_whatsapp_message`,
src/app.py:2338-2370) -/

/-- Python `message.split("\n")` (`"".split("\n") == [""]`). -/
def splitOnNl : Txt → List Txt
  | [] => [[]]
  | c :: rest =>
    if c = '\n' then [] :: splitOnNl rest
    else
      match splitOnNl rest with
      | l :: ls => (c :: l) :: ls
      | [] => [[c]]

/-- The accumulation loop of `split_message`: `current` carries a trailing
newline after every appended line; a finished chunk is `current.strip()`. -/
def smLoop : List Txt → Txt → List Txt → List Txt
  | [], current, parts =>
    if current ≠ [] then parts ++ [stripChars current] else parts
  | line :: rest, current, parts =>
    if current.length + line.length + 1 ≤ 1500 then
      smLoop rest (current ++ line ++ ['\n']) parts
    else
      smLoop rest (line ++ ['\n'])
        (if current ≠ [] then parts ++ [stripChars current] else parts)

/-- `split_message` with the default `max_length=1500`. -/
def split_message (msg : Txt) : List Txt :=
  if msg.length ≤ 1500 then [msg] else smLoop (splitOnNl msg) [] []

/-- The sending loop of `send_whatsapp_message`: each part is one
`twilio_client.messages.create` call (`gw`); a failing call raises out of
the loop, so the remaining parts are never attempted and the function
returns `False`.  The second component lists the parts attempted, in
order. -/
def sendLoop (gw : Txt → Bool) : List Txt → Bool × List Txt
  | [] => (true, [])
  | p :: rest =>
    if gw p then
      let r := sendLoop gw rest
      (r.1, p :: r.2)
    else (false, [p])

/-- `send_whatsapp_message`. -/
def send_whatsapp_message (gw : Txt → Bool) (msg : Txt) : Bool × List Txt :=
  sendLoop gw (split_message msg)

/-! ## Specification helpers for the chunking proofs -/

/-- A whitespace-free, nonempty line (no leading/trailing blanks, hence no
newline characters). -/
def cleanLine (l : Txt) : Prop := l ≠ [] ∧ ∀ c ∈ l, c.isWhitespace = false

instance : DecidablePred cleanLine := fun l =>
  inferInstanceAs (Decidable (l ≠ [] ∧ ∀ c ∈ l, c.isWhitespace = false))

/-- The shape of the loop accumulator `current`: every line followed by a
newline. -/
def joinNl (cls : List Txt) : Txt := (cls.map (fun l => l ++ ['\n'])).flatten

/-- Lines joined by single newlines — the shape of a stripped chunk. -/
def joinLines : List Txt → Txt
  | [] => []
  | [l] => l
  | l :: ls => l ++ '\n' :: joinLines ls

/-! # Theorems -/

/-! ## C10: conversation history bound -/

/-- C10 counterexample: with a full 50-message stored history, the local
`conversation` list that `get_ai_response` passes to the oracle — the
stored history plus the freshly appended user message — has 51 entries, so
the claimed oracle-side bound of 50 does not hold. -/
theorem c10_counterexample :
    (List.replicate 50 (⟨"user", "x"⟩ : ChatMsg)).length = 50 ∧
    (oracle_messages (List.replicate 50 ⟨"user", "x"⟩) "y").length = 51 ∧
    ¬ (oracle_messages (List.replicate 50 ⟨"user", "x"⟩) "y").length ≤ 50 := by
  refine ⟨by simp, by simp [oracle_messages], by simp [oracle_messages]⟩

/-- C10 (amended): after any append the STORED conversation history holds at
most 50 messages, and appending to a full 50-message history drops the
oldest one; but the list passed to the conversation oracle is the stored
history plus the new user message appended to a local copy, so it is
bounded by 51 entries, not 50. -/
theorem c10_stored_bounded_oracle_plus_one :
    (∀ (hist : List ChatMsg) (role content : String),
      (add_to_conversation hist role content).length ≤ 50 ∧
      (hist.length = 50 →
        add_to_conversation hist role content =
          hist.drop 1 ++ [⟨role, content⟩])) ∧
    (∀ (stored : List ChatMsg) (userMsg : String),
      oracle_messages stored userMsg = stored ++ [⟨"user", userMsg⟩] ∧
      (oracle_messages stored userMsg).length = stored.length + 1 ∧
      (stored.length ≤ 50 → (oracle_messages stored userMsg).length ≤ 51)) := by
  constructor
  · intro hist role content
    constructor
    · unfold add_to_conversation
      by_cases h : 50 < (hist ++ [(⟨role, content⟩ : ChatMsg)]).length
      · simp only [if_pos h, List.length_drop]
        omega
      · simp only [if_neg h]
        omega
    · intro h50
      unfold add_to_conversation
      have hlen : (hist ++ [(⟨role, content⟩ : ChatMsg)]).length = 51 := by
        simp [h50]
      rw [if_pos (by omega), hlen,
        List.drop_append_of_le_length (by omega)]
  · intro stored userMsg
    refine ⟨rfl, by simp [oracle_messages], ?_⟩
    intro hle
    simp only [oracle_messages, List.length_append, List.length_cons,
      List.length_nil]
    omega

/-- Witness for C10 (amended) at a concrete 50-message stored history. -/
theorem c10_stored_bounded_oracle_plus_one_witness :
    ((List.replicate 50 (⟨"user", "x"⟩ : ChatMsg)).length = 50 ∧
      add_to_conversation (List.replicate 50 ⟨"user", "x"⟩) "user" "y" =
        (List.replicate 50 (⟨"user", "x"⟩ : ChatMsg)).drop 1 ++
          [⟨"user", "y"⟩]) ∧
    ((List.replicate 50 (⟨"user", "x"⟩ : ChatMsg)).length ≤ 50 ∧
      (oracle_messages (List.replicate 50 ⟨"user", "x"⟩) "y").length ≤ 51) :=
  ⟨⟨by simp,
      (c10_stored_bounded_oracle_plus_one.1 (List.replicate 50 ⟨"user", "x"⟩)
        "user" "y").2 (by simp)⟩,
    ⟨by simp,
      (c10_stored_bounded_oracle_plus_one.2 (List.replicate 50 ⟨"user", "x"⟩)
        "y").2.2 (by simp)⟩⟩

/-! ## C5: id renumbering on deletion -/

theorem length_renumberTasks (n : Nat) (ts : List Task) :
    (renumberTasks n ts).length = ts.length := by
  induction ts generalizing n with
  | nil => rfl
  | cons t ts ih => simp [renumberTasks, ih]

theorem length_renumberNotes (n : Nat) (ns : List Note) :
    (renumberNotes n ns).length = ns.length := by
  induction ns generalizing n with
  | nil => rfl
  | cons t ts ih => simp [renumberNotes, ih]

theorem length_renumberShopping (n : Nat) (ss : List ShoppingItem) :
    (renumberShopping n ss).length = ss.length := by
  induction ss generalizing n with
  | nil => rfl
  | cons t ts ih => simp [renumberShopping, ih]

theorem map_id_renumberTasks (n : Nat) (ts : List Task) :
    (renumberTasks n ts).map Task.id = List.range' n ts.length := by
  induction ts generalizing n with
  | nil => rfl
  | cons t ts ih => simp [renumberTasks, List.range', ih]

theorem map_id_renumberNotes (n : Nat) (ns : List Note) :
    (renumberNotes n ns).map Note.id = List.range' n ns.length := by
  induction ns generalizing n with
  | nil => rfl
  | cons t ts ih => simp [renumberNotes, List.range', ih]

theorem map_id_renumberShopping (n : Nat) (ss : List ShoppingItem) :
    (renumberShopping n ss).map ShoppingItem.id = List.range' n ss.length := by
  induction ss generalizing n with
  | nil => rfl
  | cons t ts ih => simp [renumberShopping, List.range', ih]

/-- C5 counterexample: the claim extends the renumbering to reminder
deletion, but `delete_reminder` has no renumbering loop — deleting id 2
from reminders with ids 1,2,3 leaves ids 1,3, not 1,2. -/
theorem c5_counterexample :
    (deleteReminderList
        [⟨1, "A", 0, false⟩, ⟨2, "B", 0, false⟩, ⟨3, "C", 0, false⟩] 2).map
      Reminder.id = [1, 3] ∧ ([1, 3] : List Nat) ≠ [1, 2] := by
  constructor
  · rfl
  · decide

/-- C5 (amended): ids are 1-based and dense after any deletion for tasks,
notes and shopping items — deleting id k renumbers later items down by one,
and [A,B,C] minus id 2 yields [A,C] with ids 1,2 — but reminder deletion
does NOT renumber: the surviving reminders keep their original ids. -/
theorem c5_dense_renumbering_except_reminders :
    (∀ (ts : List Task) (k : Nat),
      (deleteTaskList ts k).map Task.id =
        List.range' 1 (deleteTaskList ts k).length) ∧
    (∀ (ns : List Note) (k : Nat),
      (deleteNoteList ns k).map Note.id =
        List.range' 1 (deleteNoteList ns k).length) ∧
    (∀ (ss : List ShoppingItem) (k : Nat),
      (deleteShoppingList ss k).map ShoppingItem.id =
        List.range' 1 (deleteShoppingList ss k).length) ∧
    deleteTaskList [⟨1, "A", false⟩, ⟨2, "B", false⟩, ⟨3, "C", false⟩] 2 =
      [⟨1, "A", false⟩, ⟨2, "C", false⟩] ∧
    (∀ (rs : List Reminder) (k : Nat),
      (deleteReminderList rs k).map Reminder.id =
        (rs.map Reminder.id).filter (· ≠ k)) := by
  refine ⟨?_, ?_, ?_, by decide, ?_⟩
  · intro ts k
    rw [deleteTaskList, map_id_renumberTasks, length_renumberTasks]
  · intro ns k
    rw [deleteNoteList, map_id_renumberNotes, length_renumberNotes]
  · intro ss k
    rw [deleteShoppingList, map_id_renumberShopping, length_renumberShopping]
  · intro rs k
    rw [deleteReminderList, List.filter_map]
    rfl

/-! ## C8: caregiver-chain duplication -/

/-- C8 counterexample: registering the same number as primary and then as
secondary puts it in the chain twice, so the full contact list returned by
`get_all_caregivers` contains a duplicate address. -/
theorem c8_counterexample :
    get_all_caregivers
        (some (set_caregiver
          (some (set_caregiver none "+549X" true none)) "+549X" false none)) =
      ["whatsapp:+549X", "whatsapp:+549X"] ∧
    ¬ (["whatsapp:+549X", "whatsapp:+549X"] : List String).Nodup := by
  constructor
  · rfl
  · decide

theorem secondaries_nodup_applyCgOp (entry : Option CaregiverEntry)
    (op : CgOp) (h : (secondariesOf entry).Nodup) :
    (secondariesOf (applyCgOp entry op)).Nodup := by
  cases op with
  | set num isPrimary name =>
    cases entry with
    | none =>
      cases isPrimary <;> simp [applyCgOp, set_caregiver, secondariesOf]
    | some e =>
      cases e with
      | legacy n =>
        cases isPrimary <;> simp [applyCgOp, set_caregiver, secondariesOf]
      | chain p pn s =>
        cases isPrimary with
        | true => simpa [applyCgOp, set_caregiver, secondariesOf] using h
        | false =>
          simp only [applyCgOp, set_caregiver, secondariesOf] at h ⊢
          by_cases hmem : normalizeNumber num ∈ s
          · simpa [hmem] using h
          · simp only [hmem, if_false, if_neg hmem]
            rw [← List.concat_eq_append]
            exact List.Nodup.concat hmem h
  | remove num =>
    cases entry with
    | none => simp [applyCgOp, remove_caregiver, secondariesOf]
    | some e =>
      cases e with
      | legacy n => simp [applyCgOp, remove_caregiver, secondariesOf]
      | chain p pn s =>
        simp only [applyCgOp, remove_caregiver, secondariesOf] at h ⊢
        by_cases hmem : normalizeNumber num ∈ s
        · simpa [hmem, secondariesOf] using h.erase _
        · simpa [hmem, secondariesOf] using h

/-! ## Medication helper lemmas -/

theorem taken_today_false (m : MedUser) (today : Nat) (period : String)
    (h : ∀ e ∈ m.log, ¬(e.date = today ∧ e.period = period)) :
    check_medication_taken_today m today period = false := by
  unfold check_medication_taken_today
  rw [List.any_eq_false]
  intro e he
  have := h e he
  simp only [Bool.and_eq_true, decide_eq_true_eq]
  tauto

theorem taken_after_log (m : MedUser) (now : Nat) (period : String) :
    check_medication_taken_today (log_medication_taken m now period)
      (dayOf now) period = true := by
  unfold log_medication_taken check_medication_taken_today
  rw [List.any_eq_true]
  refine ⟨⟨dayOf now, period⟩, ?_, by simp⟩
  simp only
  by_cases h : 120 < (m.log ++ [(⟨dayOf now, period⟩ : MedLogEntry)]).length
  · rw [if_pos h, List.drop_append_of_le_length (by simp)]
    simp
  · rw [if_neg h]; simp

theorem check_no_pending (m : MedUser) (now : Nat)
    (cg : Option CaregiverEntry) (h : m.pending = none) :
    check_medication_confirmations m now cg = (m, []) := by
  unfold check_medication_confirmations
  rw [h]

/-- C8 (amended): over every sequence of set/remove caregiver operations, a
contact address appears at most once among the SECONDARY contacts; the
primary address, however, may also occur as a secondary (see the
counterexample), so the combined primary+secondary list can repeat an
address. -/
theorem c8_secondaries_nodup (ops : List CgOp) :
    (secondariesOf (applyCgOps ops)).Nodup := by
  suffices h : ∀ (entry : Option CaregiverEntry), (secondariesOf entry).Nodup →
      (secondariesOf (ops.foldl applyCgOp entry)).Nodup by
    exact h none (by simp [secondariesOf])
  induction ops with
  | nil => intro entry h; simpa using h
  | cons op ops ih =>
    intro entry h
    exact ih _ (secondaries_nodup_applyCgOp entry op h)

/-! ## C3: stale pending confirmations and daily reset -/

/-- C3: a pending confirmation whose stored date is not the current day is
cleared by the scheduler without sending anything; and because the
taken-today check only matches log entries dated today, intakes logged on
earlier days do not block a fresh reminder/pending-confirmation cycle
today. -/
theorem c3_stale_pending_cleared_daily_reset
    (m : MedUser) (now : Nat) (cg : Option CaregiverEntry) (p : PendingConf)
    (m2 : MedUser) (period : String)
    (hp : m.pending = some p) (hstale : p.date ≠ dayOf now)
    (hmeds : m2.medications ≠ [])
    (hlog : ∀ e ∈ m2.log, e.date ≠ dayOf now) :
    check_medication_confirmations m now cg =
      (clear_pending_confirmation m, []) ∧
    check_medication_taken_today m2 (dayOf now) period = false ∧
    send_medication_reminder m2 now period =
      (set_pending_confirmation m2 now period 1, [.firstReminder]) := by
  have htaken : check_medication_taken_today m2 (dayOf now) period = false :=
    taken_today_false m2 (dayOf now) period
      (fun e he hc => hlog e he hc.1)
  refine ⟨?_, htaken, ?_⟩
  · unfold check_medication_confirmations
    rw [hp]
    simp [hstale]
  · unfold send_medication_reminder
    rw [if_pos hmeds, if_pos (by simp [htaken])]

/-- Witness for C3: a pending entry stamped on day 0 seen by the scheduler
on day 1, and a day-0 intake log that does not block the day-1 reminder. -/
theorem c3_stale_pending_cleared_daily_reset_witness :
    (some (⟨"mañana", 1, 600, 0⟩ : PendingConf) =
        some (⟨"mañana", 1, 600, 0⟩ : PendingConf) ∧
      (0 : Nat) ≠ dayOf 2040 ∧
      (["Aspirina"] : List String) ≠ [] ∧
      ∀ e ∈ [(⟨0, "mañana"⟩ : MedLogEntry)], e.date ≠ dayOf 2040) ∧
    (check_medication_confirmations
        ⟨["Aspirina"], [⟨0, "mañana"⟩], some ⟨"mañana", 1, 600, 0⟩⟩ 2040 none =
      (clear_pending_confirmation
        ⟨["Aspirina"], [⟨0, "mañana"⟩], some ⟨"mañana", 1, 600, 0⟩⟩, []) ∧
    check_medication_taken_today
        ⟨["Aspirina"], [⟨0, "mañana"⟩], none⟩ (dayOf 2040) "mañana" = false ∧
    send_medication_reminder ⟨["Aspirina"], [⟨0, "mañana"⟩], none⟩ 2040 "mañana" =
      (set_pending_confirmation
        ⟨["Aspirina"], [⟨0, "mañana"⟩], none⟩ 2040 "mañana" 1,
        [.firstReminder])) :=
  ⟨⟨rfl, by decide, by decide, by decide⟩,
    c3_stale_pending_cleared_daily_reset
      ⟨["Aspirina"], [⟨0, "mañana"⟩], some ⟨"mañana", 1, 600, 0⟩⟩ 2040 none
      ⟨"mañana", 1, 600, 0⟩ ⟨["Aspirina"], [⟨0, "mañana"⟩], none⟩ "mañana"
      rfl (by decide) (by decide) (by decide)⟩

/-! ## C2: the timed confirmation state machine -/

/-- C2: with a first reminder pending (attempt 1, sent at `t0`), the
scheduler is a no-op before 5 minutes have elapsed, sends the second
reminder (attempt 2, re-stamped) at ≥ 5 minutes; with the second reminder
pending (attempt 2, sent at `t1`) it is a no-op before 5 further minutes and
escalates to the primary caregiver at ≥ 5 minutes, clearing the pending
entry so a re-run is a no-op (exactly one escalation).  A confirmation word
while a same-day pending confirmation exists logs the intake, clears the
pending entry, and suppresses any further reminder or escalation that
day. -/
theorem c2_timed_confirmation_machine
    (meds : List String) (L : List MedLogEntry) (period : String)
    (cg : Option CaregiverEntry) (c : String)
    (t0 nowA nowB t1 nowC nowD nowE : Nat) (msg : String)
    (hmeds : meds ≠ [])
    (hcg : get_caregiver cg = some c)
    (hL : ∀ e ∈ L, ¬(e.date = dayOf t0 ∧ e.period = period))
    (hdayA : dayOf nowA = dayOf t0) (hA : (nowA : Int) - (t0 : Int) < 5)
    (hdayB : dayOf nowB = dayOf t0) (hB : 5 ≤ (nowB : Int) - (t0 : Int))
    (hdayt1 : dayOf t1 = dayOf t0)
    (hdayC : dayOf nowC = dayOf t1) (hC : (nowC : Int) - (t1 : Int) < 5)
    (hdayD : dayOf nowD = dayOf t1) (hD : 5 ≤ (nowD : Int) - (t1 : Int))
    (hdayE : dayOf nowE = dayOf t0)
    (hmsg : isConfirmationMsg msg = true) :
    check_medication_confirmations ⟨meds, L, some ⟨period, 1, t0, dayOf t0⟩⟩
        nowA cg = (⟨meds, L, some ⟨period, 1, t0, dayOf t0⟩⟩, []) ∧
    check_medication_confirmations ⟨meds, L, some ⟨period, 1, t0, dayOf t0⟩⟩
        nowB cg =
      (⟨meds, L, some ⟨period, 2, nowB, dayOf nowB⟩⟩, [.secondReminder]) ∧
    check_medication_confirmations ⟨meds, L, some ⟨period, 2, t1, dayOf t1⟩⟩
        nowC cg = (⟨meds, L, some ⟨period, 2, t1, dayOf t1⟩⟩, []) ∧
    check_medication_confirmations ⟨meds, L, some ⟨period, 2, t1, dayOf t1⟩⟩
        nowD cg = (⟨meds, L, none⟩, [.alert c]) ∧
    check_medication_confirmations ⟨meds, L, none⟩ nowD cg =
      (⟨meds, L, none⟩, []) ∧
    handle_confirmation_reply ⟨meds, L, some ⟨period, 1, t0, dayOf t0⟩⟩ nowE
        msg =
      some (clear_pending_confirmation (log_medication_taken
        ⟨meds, L, some ⟨period, 1, t0, dayOf t0⟩⟩ nowE period)) ∧
    (clear_pending_confirmation (log_medication_taken
        ⟨meds, L, some ⟨period, 1, t0, dayOf t0⟩⟩ nowE period)).pending =
      none ∧
    check_medication_taken_today (clear_pending_confirmation
        (log_medication_taken ⟨meds, L, some ⟨period, 1, t0, dayOf t0⟩⟩ nowE
          period)) (dayOf nowE) period = true ∧
    check_medication_confirmations (clear_pending_confirmation
        (log_medication_taken ⟨meds, L, some ⟨period, 1, t0, dayOf t0⟩⟩ nowE
          period)) nowE cg =
      (clear_pending_confirmation (log_medication_taken
        ⟨meds, L, some ⟨period, 1, t0, dayOf t0⟩⟩ nowE period), []) ∧
    send_medication_reminder (clear_pending_confirmation
        (log_medication_taken ⟨meds, L, some ⟨period, 1, t0, dayOf t0⟩⟩ nowE
          period)) nowE period =
      (clear_pending_confirmation (log_medication_taken
        ⟨meds, L, some ⟨period, 1, t0, dayOf t0⟩⟩ nowE period), []) := by
  have hLfalse : ∀ d, d = dayOf t0 →
      check_medication_taken_today ⟨meds, L, some ⟨period, 1, t0, dayOf t0⟩⟩
        d period = false := by
    intro d hd
    exact taken_today_false _ d period (by rw [hd]; exact hL)
  have hLfalse2 : ∀ d, d = dayOf t0 →
      check_medication_taken_today ⟨meds, L, some ⟨period, 2, t1, dayOf t1⟩⟩
        d period = false := by
    intro d hd
    exact taken_today_false _ d period (by rw [hd]; exact hL)
  have htakenT : check_medication_taken_today (clear_pending_confirmation
      (log_medication_taken ⟨meds, L, some ⟨period, 1, t0, dayOf t0⟩⟩ nowE
        period)) (dayOf nowE) period = true := by
    have := taken_after_log ⟨meds, L, some ⟨period, 1, t0, dayOf t0⟩⟩ nowE
      period
    simpa [clear_pending_confirmation, check_medication_taken_today,
      log_medication_taken] using this
  have hf : check_medication_taken_today
      ⟨meds, L, some ⟨period, 1, t0, dayOf t0⟩⟩ (dayOf t0) period = false :=
    hLfalse (dayOf t0) rfl
  have hf2 : check_medication_taken_today
      ⟨meds, L, some ⟨period, 2, t1, dayOf t1⟩⟩ (dayOf t1) period = false :=
    hLfalse2 (dayOf t1) hdayt1
  refine ⟨?_, ?_, ?_, ?_, ?_, ?_, rfl, htakenT, ?_, ?_⟩
  · unfold check_medication_confirmations
    simp [hdayA, hf, not_le.mpr hA]
  · unfold check_medication_confirmations
    simp [hdayB, hf, hB, hmeds, set_pending_confirmation]
  · unfold check_medication_confirmations
    simp [hdayC, hf2, not_le.mpr hC]
  · unfold check_medication_confirmations
    simp [hdayD, hf2, hD, hcg, clear_pending_confirmation]
  · exact check_no_pending _ _ _ rfl
  · unfold handle_confirmation_reply
    rw [hmsg]
    simp only [get_pending_confirmation, hdayE, if_pos rfl, if_true]
  · exact check_no_pending _ _ _ rfl
  · unfold send_medication_reminder
    rw [if_pos (by simpa using hmeds), if_neg (by simp [htakenT])]

/-- Witness for C2: the §8 scenario at 10:00/10:05/10:10 on day 0 (minutes
600, 605, 610), with primary contact `whatsapp:+549`; the escalation
equation is obtained by applying the C2 theorem. -/
theorem c2_timed_confirmation_machine_witness :
    ((["IbuprofenoX"] : List String) ≠ [] ∧
      get_caregiver (some (.chain (some "whatsapp:+549") none [])) =
        some "whatsapp:+549" ∧
      (∀ e ∈ ([] : List MedLogEntry),
        ¬(e.date = dayOf 600 ∧ e.period = "mañana")) ∧
      dayOf 604 = dayOf 600 ∧ ((604 : Int) - (600 : Int) < 5) ∧
      dayOf 605 = dayOf 600 ∧ (5 ≤ (605 : Int) - (600 : Int)) ∧
      dayOf 605 = dayOf 600 ∧
      dayOf 609 = dayOf 605 ∧ ((609 : Int) - (605 : Int) < 5) ∧
      dayOf 610 = dayOf 605 ∧ (5 ≤ (610 : Int) - (605 : Int)) ∧
      dayOf 603 = dayOf 600 ∧
      isConfirmationMsg "sí" = true) ∧
    check_medication_confirmations
        ⟨["IbuprofenoX"], [], some ⟨"mañana", 2, 605, dayOf 605⟩⟩ 610
        (some (.chain (some "whatsapp:+549") none [])) =
      (⟨["IbuprofenoX"], [], none⟩, [.alert "whatsapp:+549"]) :=
  ⟨⟨by decide, rfl, by decide, rfl, by decide, rfl, by decide, rfl, rfl,
    by decide, rfl, by decide, rfl, by decide⟩,
    (c2_timed_confirmation_machine ["IbuprofenoX"] [] "mañana"
      (some (.chain (some "whatsapp:+549") none [])) "whatsapp:+549"
      600 604 605 605 609 610 603 "sí" (by decide) rfl (by decide) rfl
      (by decide) rfl (by decide) rfl rfl (by decide) rfl (by decide) rfl
      (by decide)).2.2.2.1⟩

/-! ## C1: escalation fan-out -/

/-- C1 counterexample: a subject with primary `whatsapp:P` and secondaries
`whatsapp:S1`, `whatsapp:S2` whose medication confirmation escalates
produces exactly ONE send attempt — to the primary — and no attempt at all
to the secondaries, contradicting the claimed three independent
attempts. -/
theorem c1_counterexample :
    get_all_caregivers (some (.chain (some "whatsapp:P") none
        ["whatsapp:S1", "whatsapp:S2"])) =
      ["whatsapp:P", "whatsapp:S1", "whatsapp:S2"] ∧
    (check_medication_confirmations
        ⟨["Aspirina"], [], some ⟨"mañana", 2, 0, 0⟩⟩ 5
        (some (.chain (some "whatsapp:P") none
          ["whatsapp:S1", "whatsapp:S2"]))).2 = [.alert "whatsapp:P"] ∧
    MedEvent.alert "whatsapp:S1" ∉ (check_medication_confirmations
        ⟨["Aspirina"], [], some ⟨"mañana", 2, 0, 0⟩⟩ 5
        (some (.chain (some "whatsapp:P") none
          ["whatsapp:S1", "whatsapp:S2"]))).2 := by
  refine ⟨rfl, rfl, ?_⟩
  decide

/-- C1 (amended): the medication escalation sends the alert only to the
subject's PRIMARY caregiver (`get_caregiver`) — secondaries receive
nothing; the separate `alert_all_caregivers` helper is the one that fans
out with one independent attempt per contact in the chain, regardless of
individual failures. -/
theorem c1_escalation_primary_only
    (m : MedUser) (now : Nat) (cg : Option CaregiverEntry) (p : PendingConf)
    (hp : m.pending = some p) (hdate : p.date = dayOf now)
    (htaken : check_medication_taken_today m (dayOf now) p.period = false)
    (hatt : p.attempt = 2)
    (helapsed : 5 ≤ (now : Int) - (p.sentAt : Int)) :
    (∀ (entry : Option CaregiverEntry) (gw : String → Bool),
      (alert_all_caregivers entry gw).map Prod.fst =
        get_all_caregivers entry) ∧
    (check_medication_confirmations m now cg).2 =
      (match get_caregiver cg with
        | some c => [MedEvent.alert c]
        | none => []) := by
  constructor
  · intro entry gw
    rw [alert_all_caregivers, List.map_map]
    exact List.map_id (get_all_caregivers entry)
  · unfold check_medication_confirmations
    rw [hp]
    simp [hdate, htaken, hatt, helapsed]

/-- Witness for C1 (amended) at a concrete escalating state. -/
theorem c1_escalation_primary_only_witness :
    ((some (⟨"mañana", 2, 0, 0⟩ : PendingConf) =
        some (⟨"mañana", 2, 0, 0⟩ : PendingConf)) ∧
      (0 : Nat) = dayOf 5 ∧
      check_medication_taken_today ⟨["A"], [], some ⟨"mañana", 2, 0, 0⟩⟩
        (dayOf 5) "mañana" = false ∧
      (2 : Nat) = 2 ∧ (5 : Int) ≤ (5 : Int) - (0 : Int)) ∧
    (check_medication_confirmations ⟨["A"], [], some ⟨"mañana", 2, 0, 0⟩⟩ 5
        (some (.chain (some "P") none ["S"]))).2 = [MedEvent.alert "P"] :=
  ⟨⟨rfl, by decide, by decide, rfl, by decide⟩,
    by
      have h := (c1_escalation_primary_only
        ⟨["A"], [], some ⟨"mañana", 2, 0, 0⟩⟩ 5
        (some (.chain (some "P") none ["S"])) ⟨"mañana", 2, 0, 0⟩
        rfl (by decide) (by decide) rfl (by decide)).2
      simpa using h⟩

/-! ## C7: failed reminder sends are not retried -/

/-- C7 counterexample: a due unsent reminder whose send FAILS
(`gw` returns `False`, i.e. `send_whatsapp_message` caught an error) is
nevertheless marked `sent = true`, so its state is not left unchanged and it
will never be retried. -/
theorem c7_counterexample :
    check_and_send_custom_reminders [⟨1, "m", 0, false⟩] 5
        (fun _ => false) =
      ([⟨1, "m", 0, true⟩], [(1, false)]) := rfl

theorem map_id_markReminderSent (store : List Reminder) (i : Nat) :
    (markReminderSent store i).map Reminder.id = store.map Reminder.id := by
  induction store with
  | nil => rfl
  | cons y ys ih =>
    by_cases hy : y.id = i <;> simp [markReminderSent, hy, ih]

theorem markReminderSent_eq_map (store : List Reminder) (i : Nat)
    (h : (store.map Reminder.id).Nodup) :
    markReminderSent store i =
      store.map (fun y => if y.id = i then { y with sent := true } else y) := by
  induction store with
  | nil => rfl
  | cons y ys ih =>
    simp only [List.map_cons, List.nodup_cons] at h
    by_cases hy : y.id = i
    · rw [markReminderSent, if_pos hy, List.map_cons, if_pos hy]
      have hys : ys.map (fun y => if y.id = i then { y with sent := true }
          else y) = ys := by
        have : ∀ z ∈ ys, (if z.id = i then { z with sent := true } else z) =
            z := by
          intro z hz
          rw [if_neg]
          intro hzi
          exact h.1 (by rw [hy, ← hzi]; exact List.mem_map_of_mem _ hz)
        calc ys.map _ = ys.map id := List.map_congr_left this
          _ = ys := List.map_id ys
      rw [hys]
    · rw [markReminderSent, if_neg hy, List.map_cons, if_neg hy, ih h.2]

theorem checkRemindersLoop_sends (now : Nat) (gw : Reminder → Bool) :
    ∀ (iter store : List Reminder),
      (checkRemindersLoop now gw iter store).2 =
        (iter.filter (fun x => !x.sent && decide (x.remindAt ≤ now))).map
          (fun r => (r.id, gw r)) := by
  intro iter
  induction iter with
  | nil => intro store; rfl
  | cons r rest ih =>
    intro store
    by_cases hs : r.sent
    · rw [checkRemindersLoop, if_pos hs, ih]
      simp [hs]
    · by_cases hd : r.remindAt ≤ now
      · rw [checkRemindersLoop, if_neg hs, if_pos hd]
        simp only [ih]
        simp [hs, hd]
      · rw [checkRemindersLoop, if_neg hs, if_neg hd, ih]
        simp [hs, hd]

theorem checkRemindersLoop_store (now : Nat) (gw : Reminder → Bool) :
    ∀ (iter store : List Reminder), (store.map Reminder.id).Nodup →
      (checkRemindersLoop now gw iter store).1 =
        store.map (fun y =>
          if iter.any (fun x => decide (x.id = y.id) && !x.sent &&
              decide (x.remindAt ≤ now))
          then { y with sent := true } else y) := by
  intro iter
  induction iter with
  | nil =>
    intro store h
    simp [checkRemindersLoop]
  | cons r rest ih =>
    intro store h
    by_cases hs : r.sent
    · rw [checkRemindersLoop, if_pos hs, ih store h]
      apply List.map_congr_left
      intro y hy
      simp [hs]
    · by_cases hd : r.remindAt ≤ now
      · rw [checkRemindersLoop, if_neg hs, if_pos hd]
        simp only
        rw [ih (markReminderSent store r.id)
          (by rw [map_id_markReminderSent]; exact h),
          markReminderSent_eq_map store r.id h, List.map_map]
        apply List.map_congr_left
        intro y hy
        by_cases hyr : y.id = r.id
        · simp [hyr, hs, hd, apply_ite]
        · have hry : ¬ r.id = y.id := fun hh => hyr hh.symm
          have hhead : (decide (r.id = y.id) && !r.sent &&
              decide (r.remindAt ≤ now)) = false := by simp [hry]
          simp only [Function.comp, if_neg hyr, List.any_cons, hhead,
            Bool.false_or]
      · rw [checkRemindersLoop, if_neg hs, if_neg hd, ih store h]
        apply List.map_congr_left
        intro y hy
        simp [hd]

/-- C7 (amended): when the reminder ids are distinct, the gateway's result
is ignored — every due, unsent reminder is marked `sent = true` after its
single delivery attempt, whether the send succeeded or FAILED, so a failed
send is never retried; reminders already marked sent are never attempted
again; each due reminder gets exactly one attempt per run.  With DUPLICATE
ids — reachable because `delete_reminder` never renumbers while
`add_reminder` assigns `len + 1` — `mark_reminder_sent` marks only the
FIRST id match, so a shadowed duplicate's flag never becomes true and its
send is re-attempted on every subsequent tick (last two conjuncts). -/
theorem c7_failed_send_marks_sent (rs : List Reminder) (now : Nat)
    (gw : Reminder → Bool) (h : (rs.map Reminder.id).Nodup) :
    (check_and_send_custom_reminders rs now gw =
      (rs.map (fun y => if !y.sent && decide (y.remindAt ≤ now)
          then { y with sent := true } else y),
        (rs.filter (fun x => !x.sent && decide (x.remindAt ≤ now))).map
          (fun r => (r.id, gw r)))) ∧
    check_and_send_custom_reminders
        [⟨1, "a", 0, false⟩, ⟨1, "b", 0, false⟩] 5 (fun _ => false) =
      ([⟨1, "a", 0, true⟩, ⟨1, "b", 0, false⟩], [(1, false), (1, false)]) ∧
    check_and_send_custom_reminders
        [⟨1, "a", 0, true⟩, ⟨1, "b", 0, false⟩] 5 (fun _ => false) =
      ([⟨1, "a", 0, true⟩, ⟨1, "b", 0, false⟩], [(1, false)]) := by
  refine ⟨?_, rfl, rfl⟩
  unfold check_and_send_custom_reminders
  refine Prod.ext ?_ ?_
  · rw [checkRemindersLoop_store now gw rs rs h]
    apply List.map_congr_left
    intro y hy
    by_cases hcy : (!y.sent && decide (y.remindAt ≤ now)) = true
    · rw [if_pos (List.any_eq_true.2 ⟨y, hy, by simp [hcy]⟩), if_pos hcy]
    · rw [if_neg hcy]
      rw [if_neg]
      intro hany
      obtain ⟨x, hx, hxc⟩ := List.any_eq_true.1 hany
      simp only [Bool.and_eq_true, decide_eq_true_eq] at hxc
      have hxy : x = y :=
        List.inj_on_of_nodup_map h hx hy hxc.1.1
      exact hcy (by subst hxy; simp [hxc.1.2, hxc.2])
  · exact checkRemindersLoop_sends now gw rs rs

/-- Witness for C7 (amended): one failing and one succeeding reminder. -/
theorem c7_failed_send_marks_sent_witness :
    (([⟨1, "a", 0, false⟩, ⟨2, "b", 30, false⟩] : List Reminder).map
        Reminder.id).Nodup ∧
    check_and_send_custom_reminders
        [⟨1, "a", 0, false⟩, ⟨2, "b", 30, false⟩] 10 (fun r => r.id = 2) =
      ([⟨1, "a", 0, true⟩, ⟨2, "b", 30, false⟩], [(1, false)]) :=
  ⟨by decide,
    by
      have h := (c7_failed_send_marks_sent
        [⟨1, "a", 0, false⟩, ⟨2, "b", 30, false⟩] 10 (fun r => r.id = 2)
        (by decide)).1
      simpa using h⟩

/-! ## C4: duplicate add-task tags -/

/-- C4 counterexample: a reply with two `[TAREA_AGREGAR]` tags creates
exactly one task (from the first tag), but the second tag's markup IS
removed: `re.sub` deletes every occurrence, so no opening tag survives in
the returned text, contradicting "the second tag's markup is not
removed". -/
theorem c4_counterexample :
    (processTareaAgregar
        "[TAREA_AGREGAR]A[/TAREA_AGREGAR] y [TAREA_AGREGAR]B[/TAREA_AGREGAR]".data
        none).2 = some [⟨1, "A", false⟩] ∧
    findSub "[TAREA_AGREGAR]".data
      (processTareaAgregar
        "[TAREA_AGREGAR]A[/TAREA_AGREGAR] y [TAREA_AGREGAR]B[/TAREA_AGREGAR]".data
        none).1 = none := ⟨rfl, rfl⟩

theorem findSub_nil (pat : Txt) (h : pat ≠ []) : findSub pat [] = none := by
  unfold findSub
  rw [if_neg h]

theorem findSub_cons_of_head_ne (c0 : Char) (pt : Txt) (x : Char) (xs : Txt)
    (hx : x ≠ c0) :
    findSub (c0 :: pt) (x :: xs) = (findSub (c0 :: pt) xs).map (· + 1) := by
  rw [findSub, if_neg]
  simp [List.isPrefixOf, Ne.symm hx]

theorem findSub_append_of_head_notMem (c0 : Char) (pt a rest : Txt)
    (ha : c0 ∉ a) :
    findSub (c0 :: pt) (a ++ rest) =
      (findSub (c0 :: pt) rest).map (· + a.length) := by
  induction a with
  | nil =>
    simp only [List.nil_append, List.length_nil]
    cases findSub (c0 :: pt) rest <;> simp
  | cons x a' ih =>
    have hx : x ≠ c0 := fun hh => ha (hh ▸ List.mem_cons_self x a')
    rw [List.cons_append, findSub_cons_of_head_ne c0 pt x (a' ++ rest) hx,
      ih (fun hm => ha (List.mem_cons_of_mem x hm))]
    cases findSub (c0 :: pt) rest with
    | none => simp
    | some v =>
      simp only [Option.map_some']
      simp
      omega

theorem findSub_prefix (pat rest : Txt) (h : pat ≠ []) :
    findSub pat (pat ++ rest) = some 0 := by
  cases pat with
  | nil => exact absurd rfl h
  | cons c t =>
    rw [List.cons_append, findSub, if_pos]
    exact List.isPrefixOf_iff_prefix.2 ⟨rest, rfl⟩

theorem findSub_none_of_head_notMem (c0 : Char) (pt s : Txt) (hs : c0 ∉ s) :
    findSub (c0 :: pt) s = none := by
  have h := findSub_append_of_head_notMem c0 pt s [] hs
  rw [List.append_nil] at h
  rw [h, findSub_nil _ (List.cons_ne_nil c0 pt)]
  rfl

theorem firstTag_shape (c0 : Char) (ot ct a b rest : Txt)
    (ha : c0 ∉ a) (hb : c0 ∉ b) :
    firstTag (c0 :: ot) (c0 :: ct)
        (a ++ ((c0 :: ot) ++ (b ++ ((c0 :: ct) ++ rest)))) =
      some ⟨a.length, b,
        a.length + (c0 :: ot).length + b.length + (c0 :: ct).length⟩ := by
  have hdrop : (a ++ ((c0 :: ot) ++ (b ++ ((c0 :: ct) ++ rest)))).drop
      (a.length + (c0 :: ot).length) = b ++ ((c0 :: ct) ++ rest) := by
    rw [show a ++ ((c0 :: ot) ++ (b ++ ((c0 :: ct) ++ rest))) =
        (a ++ (c0 :: ot)) ++ (b ++ ((c0 :: ct) ++ rest)) from
      (List.append_assoc a _ _).symm]
    exact List.drop_left' (by simp)
  unfold firstTag
  rw [findSub_append_of_head_notMem c0 ot a _ ha,
    findSub_prefix _ _ (List.cons_ne_nil c0 ot)]
  simp only [Option.map_some', Nat.zero_add, hdrop,
    findSub_append_of_head_notMem c0 ct b ((c0 :: ct) ++ rest) hb,
    findSub_prefix (c0 :: ct) rest (List.cons_ne_nil c0 ct),
    List.take_left]

theorem subAllFuel_of_none (openT closeT s : Txt)
    (h : firstTag openT closeT s = none) :
    ∀ fuel, subAllFuel openT closeT fuel s = s := by
  intro fuel
  cases fuel with
  | zero => rfl
  | succ n => rw [subAllFuel, h]

theorem subAllFuel_of_some (openT closeT s : Txt) (m : TagMatch) (fuel : Nat)
    (h : firstTag openT closeT s = some m) :
    subAllFuel openT closeT (fuel + 1) s =
      s.take m.start ++ subAllFuel openT closeT fuel (s.drop m.stop) := by
  rw [subAllFuel, h]

theorem subAll_two_tags (c0 : Char) (ot ct a b c d e : Txt)
    (ha : c0 ∉ a) (hb : c0 ∉ b) (hc : c0 ∉ c) (hd : c0 ∉ d) (he : c0 ∉ e) :
    subAll (c0 :: ot) (c0 :: ct)
        (a ++ ((c0 :: ot) ++ (b ++ ((c0 :: ct) ++
          (c ++ ((c0 :: ot) ++ (d ++ ((c0 :: ct) ++ e)))))))) =
      a ++ (c ++ e) := by
  have hm1 := firstTag_shape c0 ot ct a b
    (c ++ ((c0 :: ot) ++ (d ++ ((c0 :: ct) ++ e)))) ha hb
  have hm2 := firstTag_shape c0 ot ct c d e hc hd
  have hnone : firstTag (c0 :: ot) (c0 :: ct) e = none := by
    unfold firstTag
    rw [findSub_none_of_head_notMem c0 ot e he]
  have hlen : ∃ n,
      (a ++ ((c0 :: ot) ++ (b ++ ((c0 :: ct) ++
        (c ++ ((c0 :: ot) ++ (d ++ ((c0 :: ct) ++ e)))))))).length = n + 2 :=
    ⟨(a ++ ((c0 :: ot) ++ (b ++ ((c0 :: ct) ++
        (c ++ ((c0 :: ot) ++ (d ++ ((c0 :: ct) ++ e)))))))).length - 2,
      by simp; omega⟩
  obtain ⟨n, hn⟩ := hlen
  rw [subAll, hn, subAllFuel_of_some _ _ _ _ _ hm1]
  have htake1 : (a ++ ((c0 :: ot) ++ (b ++ ((c0 :: ct) ++
      (c ++ ((c0 :: ot) ++ (d ++ ((c0 :: ct) ++ e)))))))).take a.length = a :=
    List.take_left a _
  have hdrop1 : (a ++ ((c0 :: ot) ++ (b ++ ((c0 :: ct) ++
      (c ++ ((c0 :: ot) ++ (d ++ ((c0 :: ct) ++ e)))))))).drop
        (a.length + (c0 :: ot).length + b.length + (c0 :: ct).length) =
      c ++ ((c0 :: ot) ++ (d ++ ((c0 :: ct) ++ e))) := by
    rw [show a ++ ((c0 :: ot) ++ (b ++ ((c0 :: ct) ++
        (c ++ ((c0 :: ot) ++ (d ++ ((c0 :: ct) ++ e))))))) =
        (a ++ ((c0 :: ot) ++ (b ++ (c0 :: ct)))) ++
          (c ++ ((c0 :: ot) ++ (d ++ ((c0 :: ct) ++ e)))) from by
      simp [List.append_assoc]]
    exact List.drop_left' (by simp; omega)
  simp only [htake1, hdrop1]
  rw [subAllFuel_of_some _ _ _ _ _ hm2]
  have htake2 : (c ++ ((c0 :: ot) ++ (d ++ ((c0 :: ct) ++ e)))).take c.length =
      c := List.take_left c _
  have hdrop2 : (c ++ ((c0 :: ot) ++ (d ++ ((c0 :: ct) ++ e)))).drop
        (c.length + (c0 :: ot).length + d.length + (c0 :: ct).length) = e := by
    rw [show c ++ ((c0 :: ot) ++ (d ++ ((c0 :: ct) ++ e))) =
        (c ++ ((c0 :: ot) ++ (d ++ (c0 :: ct)))) ++ e from by
      simp [List.append_assoc]]
    exact List.drop_left' (by simp; omega)
  simp only [htake2, hdrop2]
  rw [subAllFuel_of_none _ _ _ hnone]

theorem mem_of_mem_stripChars {x : Char} {l : Txt} (h : x ∈ stripChars l) :
    x ∈ l := by
  unfold stripChars at h
  rw [List.mem_reverse] at h
  have h1 := (List.dropWhile_sublist _).subset h
  rw [List.mem_reverse] at h1
  exact (List.dropWhile_sublist _).subset h1

/-- C4 (amended): dispatching a reply creates at most one task — exactly
one, built from the FIRST tag's stripped content, whenever a tag is present
— and ALL occurrences of the tag markup, the second tag's included, are
removed: for EVERY reply text of the form
`pre [TAREA_AGREGAR] body1 [/TAREA_AGREGAR] mid [TAREA_AGREGAR] body2
[/TAREA_AGREGAR] post` whose segments contain no tag-delimiter `[`, the
returned text is `pre mid post` plus the confirmation line, and no tag
occurrence remains in it. -/
theorem c4_one_task_all_markup_removed :
    (∀ (s : Txt) (store : Option (List Task)) (m : TagMatch),
      firstTag "[TAREA_AGREGAR]".data "[/TAREA_AGREGAR]".data s = some m →
      (processTareaAgregar s store).2 =
        some ((store.getD []) ++
          [⟨(store.getD []).length + 1, String.mk (stripChars m.content),
            false⟩])) ∧
    (∀ (s : Txt) (store : Option (List Task)),
      ((processTareaAgregar s store).2.getD []).length ≤
        (store.getD []).length + 1) ∧
    (∀ (a b c d e : Txt) (store : Option (List Task)),
      '[' ∉ a → '[' ∉ b → '[' ∉ c → '[' ∉ d → '[' ∉ e →
      processTareaAgregar
          (a ++ ("[TAREA_AGREGAR]".data ++ (b ++ ("[/TAREA_AGREGAR]".data ++
            (c ++ ("[TAREA_AGREGAR]".data ++ (d ++ ("[/TAREA_AGREGAR]".data ++
              e)))))))) store =
        (a ++ (c ++ e) ++ "\n\n✅ Tarea agregada: ".data ++ stripChars b,
          some ((store.getD []) ++
            [⟨(store.getD []).length + 1, String.mk (stripChars b),
              false⟩])) ∧
      firstTag "[TAREA_AGREGAR]".data "[/TAREA_AGREGAR]".data
        (processTareaAgregar
          (a ++ ("[TAREA_AGREGAR]".data ++ (b ++ ("[/TAREA_AGREGAR]".data ++
            (c ++ ("[TAREA_AGREGAR]".data ++ (d ++ ("[/TAREA_AGREGAR]".data ++
              e)))))))) store).1 = none) := by
  refine ⟨?_, ?_, ?_⟩
  · intro s store m hm
    unfold processTareaAgregar
    rw [hm]
    rfl
  · intro s store
    unfold processTareaAgregar
    cases hm : firstTag "[TAREA_AGREGAR]".data "[/TAREA_AGREGAR]".data s with
    | none => simp
    | some m => simp [add_task_store, add_task]
  · intro a b c d e store ha hb hc hd he
    have hopen : ("[TAREA_AGREGAR]".data : Txt) =
        '[' :: "TAREA_AGREGAR]".data := rfl
    have hclose : ("[/TAREA_AGREGAR]".data : Txt) =
        '[' :: "/TAREA_AGREGAR]".data := rfl
    have heq : processTareaAgregar
        (a ++ ("[TAREA_AGREGAR]".data ++ (b ++ ("[/TAREA_AGREGAR]".data ++
          (c ++ ("[TAREA_AGREGAR]".data ++ (d ++ ("[/TAREA_AGREGAR]".data ++
            e)))))))) store =
        (a ++ (c ++ e) ++ "\n\n✅ Tarea agregada: ".data ++ stripChars b,
          some ((store.getD []) ++
            [⟨(store.getD []).length + 1, String.mk (stripChars b),
              false⟩])) := by
      unfold processTareaAgregar
      rw [hopen, hclose]
      rw [firstTag_shape '[' "TAREA_AGREGAR]".data "/TAREA_AGREGAR]".data
        a b _ ha hb]
      rw [subAll_two_tags '[' "TAREA_AGREGAR]".data "/TAREA_AGREGAR]".data
        a b c d e ha hb hc hd he]
      rfl
    refine ⟨heq, ?_⟩
    rw [heq]
    have hnomem : '[' ∉
        a ++ (c ++ e) ++ "\n\n✅ Tarea agregada: ".data ++ stripChars b := by
      intro hm
      simp only [List.mem_append] at hm
      rcases hm with ((hm | hm | hm) | hm) | hm
      · exact ha hm
      · exact hc hm
      · exact he hm
      · revert hm; decide
      · exact hb (mem_of_mem_stripChars hm)
    rw [hopen]
    unfold firstTag
    rw [findSub_none_of_head_notMem '[' "TAREA_AGREGAR]".data _ hnomem]

/-- Witness for C4 (amended): a two-tag reply with bracket-free segments. -/
theorem c4_one_task_all_markup_removed_witness :
    ('[' ∉ ([] : Txt) ∧ '[' ∉ "A".data ∧ '[' ∉ " y ".data ∧
      '[' ∉ "B".data) ∧
    processTareaAgregar
        ([] ++ ("[TAREA_AGREGAR]".data ++ ("A".data ++
          ("[/TAREA_AGREGAR]".data ++ (" y ".data ++
            ("[TAREA_AGREGAR]".data ++ ("B".data ++
              ("[/TAREA_AGREGAR]".data ++ ([] : Txt))))))))) none =
      ([] ++ (" y ".data ++ ([] : Txt)) ++ "\n\n✅ Tarea agregada: ".data ++
          stripChars "A".data,
        some [⟨1, "A", false⟩]) := by
  refine ⟨⟨by decide, by decide, by decide, by decide⟩, ?_⟩
  have h := (c4_one_task_all_markup_removed.2.2 [] "A".data " y ".data
    "B".data [] none (by decide) (by decide) (by decide) (by decide)
    (by decide)).1
  exact h

/-! ## C6: missing-id directives -/

/-- C6 counterexample: deleting task id 5 from a user whose only task has
id 1 appends a SUCCESS line (`✅ Tarea 5 eliminada`) — no `No encontré`
failure line anywhere in the output — while the store is unchanged, because
`delete_task` returns `True` whenever the user has a task list. -/
theorem c6_counterexample :
    processTareaEliminar "[TAREA_ELIMINAR]5[/TAREA_ELIMINAR]".data
        (some [⟨1, "A", false⟩]) =
      ("\n\n✅ Tarea 5 eliminada".data, some [⟨1, "A", false⟩]) ∧
    findSub "No encontré".data
      (processTareaEliminar "[TAREA_ELIMINAR]5[/TAREA_ELIMINAR]".data
        (some [⟨1, "A", false⟩])).1 = none ∧
    (5 : Nat) ∉ ([⟨1, "A", false⟩] : List Task).map Task.id :=
  ⟨rfl, rfl, by decide⟩

theorem completeTaskList_not_found (ts : List Task) (i : Nat)
    (h : ∀ t ∈ ts, t.id ≠ i) : completeTaskList ts i = (ts, false) := by
  induction ts with
  | nil => rfl
  | cons t ts ih =>
    rw [completeTaskList, if_neg (h t (by simp))]
    rw [ih (fun x hx => h x (by simp [hx]))]

theorem renumberTasks_dense (n : Nat) (ts : List Task)
    (h : ts.map Task.id = List.range' n ts.length) : renumberTasks n ts = ts := by
  induction ts generalizing n with
  | nil => rfl
  | cons t ts ih =>
    simp only [List.map_cons, List.length_cons, List.range'_succ] at h
    rw [renumberTasks, ih (n + 1) (List.cons.injEq .. ▸ h).2]
    have hid : t.id = n := (List.cons.injEq .. ▸ h).1
    rw [← hid]

theorem deleteTaskList_not_found (ts : List Task) (i : Nat)
    (hmiss : ∀ t ∈ ts, t.id ≠ i)
    (hdense : ts.map Task.id = List.range' 1 ts.length) :
    deleteTaskList ts i = ts := by
  unfold deleteTaskList
  rw [List.filter_eq_self.2 (by intro t ht; simpa using hmiss t ht)]
  exact renumberTasks_dense 1 ts hdense

/-- C6 (amended): only some missing-id directives produce a visible `not
found` line.  Complete-task with an absent id appends `❌ No encontré la
tarea` and leaves the store unchanged; but delete-task with an absent id on
an existing (dense) list appends a SUCCESS line while deleting nothing, and
with no list at all it is silently ignored (no message, markup kept);
delete-reminder likewise reports success for an absent id on an existing
list, and appends its `not found` line only when the user has no reminder
list whatsoever. -/
theorem c6_not_found_surface
    (s : Txt) (ts : List Task) (rs : List Reminder)
    (mC : TagMatch × Nat) (mE : TagMatch × Nat) (mR : TagMatch × Nat)
    (hmC : firstNumTag "[TAREA_COMPLETAR]".data "[/TAREA_COMPLETAR]".data s =
      some mC)
    (hmE : firstNumTag "[TAREA_ELIMINAR]".data "[/TAREA_ELIMINAR]".data s =
      some mE)
    (hmR : firstNumTag "[RECORDATORIO_ELIMINAR]".data
      "[/RECORDATORIO_ELIMINAR]".data s = some mR)
    (hC : ∀ t ∈ ts, t.id ≠ mC.2) (hE : ∀ t ∈ ts, t.id ≠ mE.2)
    (hdense : ts.map Task.id = List.range' 1 ts.length)
    (hR : ∀ r ∈ rs, r.id ≠ mR.2) :
    processTareaCompletar s (some ts) =
      (s ++ ("\n\n❌ No encontré la tarea " ++ Nat.repr mC.2).data,
        some ts) ∧
    processTareaEliminar s (some ts) =
      (subAll "[TAREA_ELIMINAR]".data "[/TAREA_ELIMINAR]".data s
        ++ ("\n\n✅ Tarea " ++ Nat.repr mE.2 ++ " eliminada").data,
        some ts) ∧
    (∀ u : Txt, processTareaEliminar u none = (u, none)) ∧
    processRecordatorioEliminar s (some rs) =
      (subAll "[RECORDATORIO_ELIMINAR]".data "[/RECORDATORIO_ELIMINAR]".data s
        ++ ("\n\n✅ Recordatorio " ++ Nat.repr mR.2 ++ " eliminado").data,
        some rs) ∧
    processRecordatorioEliminar s none =
      (subAll "[RECORDATORIO_ELIMINAR]".data "[/RECORDATORIO_ELIMINAR]".data s
        ++ ("\n\n❌ No encontré el recordatorio " ++ Nat.repr mR.2).data,
        none) := by
  refine ⟨?_, ?_, ?_, ?_, ?_⟩
  · unfold processTareaCompletar
    rw [hmC]
    simp only [complete_task, completeTaskList_not_found ts mC.2 hC]
    simp
  · unfold processTareaEliminar
    rw [hmE]
    simp only [delete_task,
      deleteTaskList_not_found ts mE.2 hE hdense]
    simp
  · intro u
    unfold processTareaEliminar
    cases hm : firstNumTag "[TAREA_ELIMINAR]".data "[/TAREA_ELIMINAR]".data u
      with
    | none => rfl
    | some m => simp [delete_task]
  · unfold processRecordatorioEliminar
    rw [hmR]
    have hfix : deleteReminderList rs mR.2 = rs :=
      List.filter_eq_self.2 (by intro r hr; simpa using hR r hr)
    simp only [delete_reminder, hfix]
    simp
  · unfold processRecordatorioEliminar
    rw [hmR]
    simp [delete_reminder]

/-- Witness for C6 (amended): a text carrying all three directives with ids
absent from the one-task, one-reminder stores. -/
theorem c6_not_found_surface_witness :
    (firstNumTag "[TAREA_COMPLETAR]".data "[/TAREA_COMPLETAR]".data
        ("[TAREA_COMPLETAR]7[/TAREA_COMPLETAR]"
          ++ "[TAREA_ELIMINAR]8[/TAREA_ELIMINAR]"
          ++ "[RECORDATORIO_ELIMINAR]9[/RECORDATORIO_ELIMINAR]").data ≠
      none) ∧
    processTareaCompletar
        ("[TAREA_COMPLETAR]7[/TAREA_COMPLETAR]"
          ++ "[TAREA_ELIMINAR]8[/TAREA_ELIMINAR]"
          ++ "[RECORDATORIO_ELIMINAR]9[/RECORDATORIO_ELIMINAR]").data
        (some [⟨1, "A", false⟩]) =
      (("[TAREA_COMPLETAR]7[/TAREA_COMPLETAR]"
          ++ "[TAREA_ELIMINAR]8[/TAREA_ELIMINAR]"
          ++ "[RECORDATORIO_ELIMINAR]9[/RECORDATORIO_ELIMINAR]").data
        ++ ("\n\n❌ No encontré la tarea " ++ Nat.repr 7).data,
        some [⟨1, "A", false⟩]) := by
  constructor
  · decide
  · have h := (c6_not_found_surface
      ("[TAREA_COMPLETAR]7[/TAREA_COMPLETAR]"
        ++ "[TAREA_ELIMINAR]8[/TAREA_ELIMINAR]"
        ++ "[RECORDATORIO_ELIMINAR]9[/RECORDATORIO_ELIMINAR]").data
      [⟨1, "A", false⟩] [⟨1, "r", 0, false⟩]
      (⟨0, "7".data, 36⟩, 7) (⟨36, "8".data, 70⟩, 8) (⟨70, "9".data, 118⟩, 9)
      rfl rfl rfl (by decide) (by decide) (by decide) (by decide)).1
    simpa using h

/-! ## C9: message chunking -/

theorem splitOnNl_no_nl (l : Txt) (h : '\n' ∉ l) : splitOnNl l = [l] := by
  induction l with
  | nil => rfl
  | cons c rest ih =>
    have hc : ¬ c = '\n' := fun hc => h (hc ▸ List.mem_cons_self c rest)
    rw [splitOnNl, if_neg hc, ih (fun hm => h (List.mem_cons_of_mem c hm))]

theorem splitOnNl_append_cons (l1 l2 : Txt) (h : '\n' ∉ l1) :
    splitOnNl (l1 ++ '\n' :: l2) = l1 :: splitOnNl l2 := by
  induction l1 with
  | nil =>
    rw [List.nil_append, splitOnNl, if_pos rfl]
  | cons c rest ih =>
    have hc : ¬ c = '\n' := fun hc => h (hc ▸ List.mem_cons_self c rest)
    rw [List.cons_append, splitOnNl, if_neg hc,
      ih (fun hm => h (List.mem_cons_of_mem c hm))]

theorem cleanLine_no_nl {l : Txt} (h : cleanLine l) : '\n' ∉ l := by
  intro hm
  have := h.2 '\n' hm
  simp at this

theorem splitOnNl_joinLines (cls : List Txt) (h : ∀ l ∈ cls, '\n' ∉ l)
    (hne : cls ≠ []) : splitOnNl (joinLines cls) = cls := by
  induction cls with
  | nil => exact absurd rfl hne
  | cons b rest ih =>
    cases rest with
    | nil => exact splitOnNl_no_nl b (h b (by simp))
    | cons j js =>
      rw [joinLines, splitOnNl_append_cons b _ (h b (by simp)),
        ih (fun l hl => h l (by simp [hl])) (by simp)]
      simp

theorem joinNl_concat (cls : List Txt) (l : Txt) :
    joinNl (cls ++ [l]) = joinNl cls ++ (l ++ ['\n']) := by
  simp [joinNl]

theorem joinNl_ne_nil {cls : List Txt} (h : cls ≠ []) : joinNl cls ≠ [] := by
  cases cls with
  | nil => exact absurd rfl h
  | cons c rest => simp [joinNl]

theorem joinLines_concat (init : List Txt) (b : Txt) :
    joinLines (init ++ [b]) = joinNl init ++ b := by
  induction init with
  | nil => simp [joinLines, joinNl]
  | cons i0 init' ih =>
    cases init' with
    | nil => simp [joinLines, joinNl]
    | cons j js =>
      rw [List.cons_append, joinLines, ih]
      · simp [joinNl]
      · simp

theorem joinNl_clean_head (cls : List Txt) (h : ∀ l ∈ cls, cleanLine l)
    (hne : cls ≠ []) :
    ∃ c t, joinNl cls = c :: t ∧ c.isWhitespace = false := by
  cases cls with
  | nil => exact absurd rfl hne
  | cons l rest =>
    obtain ⟨c, lt, rfl⟩ : ∃ c lt, l = c :: lt := by
      cases l with
      | nil => exact absurd rfl ((h _ (by simp)).1)
      | cons c lt => exact ⟨c, lt, rfl⟩
    refine ⟨c, lt ++ ['\n'] ++ joinNl rest, ?_, ?_⟩
    · simp [joinNl, List.append_assoc]
    · exact (h (c :: lt) (by simp)).2 c (by simp)

theorem stripChars_joinNl (cls : List Txt) (h : ∀ l ∈ cls, cleanLine l)
    (hne : cls ≠ []) : stripChars (joinNl cls) = joinLines cls := by
  obtain ⟨init, b, hcls⟩ :
      ∃ init b, cls = init ++ [b] := by
    rcases cls.eq_nil_or_concat with h0 | ⟨L, x, hLx⟩
    · exact absurd h0 hne
    · exact ⟨L, x, by simpa [List.concat_eq_append] using hLx⟩
  subst hcls
  obtain ⟨c, t, hhead, hc⟩ := joinNl_clean_head _ h hne
  obtain ⟨d, dt, hrev⟩ : ∃ d dt, b.reverse = d :: dt := by
    have hb : b ≠ [] := (h b (by simp)).1
    cases hb' : b.reverse with
    | nil => exact absurd (List.reverse_eq_nil_iff.1 hb') hb
    | cons d dt => exact ⟨d, dt, rfl⟩
  have hd : d.isWhitespace = false := by
    have : d ∈ b := List.mem_reverse.1 (hrev ▸ List.mem_cons_self d dt)
    exact (h b (by simp)).2 d this
  unfold stripChars
  rw [hhead, List.dropWhile_cons_of_neg (by simp [hc]), ← hhead]
  rw [joinNl_concat, List.reverse_append, List.reverse_append]
  simp only [List.reverse_cons, List.reverse_nil, List.nil_append,
    List.cons_append]
  rw [List.dropWhile_cons_of_pos (by simp), hrev, List.cons_append,
    List.dropWhile_cons_of_neg (by simp [hd]), ← List.cons_append, ← hrev]
  rw [← List.reverse_append, List.reverse_reverse, joinLines_concat]

theorem smLoop_join (lines : List Txt) :
    ∀ (curLines parts : List Txt),
    (∀ l ∈ lines, cleanLine l) → (∀ l ∈ curLines, cleanLine l) →
    ((smLoop lines (joinNl curLines) parts).map splitOnNl).flatten =
      (parts.map splitOnNl).flatten ++ curLines ++ lines := by
  induction lines with
  | nil =>
    intro curLines parts _ hc
    by_cases hne : curLines = []
    · subst hne
      rw [smLoop, if_neg (by simp [joinNl])]
      simp
    · rw [smLoop, if_pos (joinNl_ne_nil hne), stripChars_joinNl curLines hc hne]
      rw [List.map_append, List.flatten_append]
      simp [splitOnNl_joinLines curLines
        (fun l hl => cleanLine_no_nl (hc l hl)) hne]
  | cons line rest ih =>
    intro curLines parts hl hc
    rw [smLoop]
    by_cases hcond :
        (joinNl curLines).length + line.length + 1 ≤ 1500
    · rw [if_pos hcond]
      have hcur' : joinNl curLines ++ line ++ ['\n'] =
          joinNl (curLines ++ [line]) := by
        rw [joinNl_concat, List.append_assoc]
      rw [hcur', ih (curLines ++ [line]) parts
        (fun l hml => hl l (by simp [hml]))
        (by
          intro l hml
          rcases List.mem_append.1 hml with hm | hm
          · exact hc l hm
          · rw [List.mem_singleton.1 hm]; exact hl line (by simp))]
      simp
    · rw [if_neg hcond]
      have hone : line ++ ['\n'] = joinNl [line] := by simp [joinNl]
      by_cases hne : curLines = []
      · subst hne
        rw [if_neg (by simp [joinNl]), hone,
          ih [line] parts (fun l hml => hl l (by simp [hml]))
            (by
              intro l hml
              rw [List.mem_singleton.1 hml]
              exact hl line (by simp))]
        simp
      · rw [if_pos (joinNl_ne_nil hne), hone,
          stripChars_joinNl curLines hc hne,
          ih [line] (parts ++ [joinLines curLines])
            (fun l hml => hl l (by simp [hml]))
            (by
              intro l hml
              rw [List.mem_singleton.1 hml]
              exact hl line (by simp))]
        rw [List.map_append, List.flatten_append]
        simp [splitOnNl_joinLines curLines
          (fun l hml => cleanLine_no_nl (hc l hml)) hne]

theorem stripChars_length_append_nl (s : Txt) :
    (stripChars (s ++ ['\n'])).length ≤ s.length := by
  have key : ∀ s : Txt,
      List.dropWhile Char.isWhitespace (s ++ ['\n']) = [] ∨
      ∃ s', List.dropWhile Char.isWhitespace (s ++ ['\n']) = s' ++ ['\n'] ∧
        s'.length ≤ s.length := by
    intro s
    induction s with
    | nil => left; rfl
    | cons c cs ih =>
      by_cases hc : c.isWhitespace
      · rw [List.cons_append, List.dropWhile_cons_of_pos hc]
        rcases ih with h | ⟨s', hs', hlen⟩
        · left; exact h
        · right; exact ⟨s', hs', Nat.le_succ_of_le hlen⟩
      · right
        rw [List.cons_append, List.dropWhile_cons_of_neg hc]
        exact ⟨c :: cs, rfl, le_refl _⟩
  unfold stripChars
  rcases key s with h | ⟨s', hs', hlen⟩
  · rw [h]; simp
  · rw [hs', List.reverse_append]
    simp only [List.reverse_cons, List.reverse_nil, List.nil_append,
      List.cons_append]
    rw [List.dropWhile_cons_of_pos (by simp)]
    calc ((s'.reverse.dropWhile Char.isWhitespace).reverse).length
        = (s'.reverse.dropWhile Char.isWhitespace).length := by
          rw [List.length_reverse]
      _ ≤ s'.reverse.length :=
          (List.dropWhile_sublist Char.isWhitespace).length_le
      _ = s'.length := by rw [List.length_reverse]
      _ ≤ s.length := hlen

theorem smLoop_bound (lines : List Txt) :
    ∀ (current : Txt) (parts : List Txt),
    (∀ l ∈ lines, l.length ≤ 1500) →
    (current = [] ∨
      (∃ pre : Txt, current = pre ++ ['\n'] ∧ current.length ≤ 1501)) →
    (∀ p ∈ parts, p.length ≤ 1500) →
    ∀ p ∈ smLoop lines current parts, p.length ≤ 1500 := by
  have flush : ∀ (current : Txt) (parts : List Txt),
      (current = [] ∨
        (∃ pre : Txt, current = pre ++ ['\n'] ∧ current.length ≤ 1501)) →
      (∀ p ∈ parts, p.length ≤ 1500) →
      ∀ p ∈ (if current ≠ [] then parts ++ [stripChars current] else parts),
        p.length ≤ 1500 := by
    intro current parts hcur hparts p hp
    by_cases hne : current = []
    · subst hne
      rw [if_neg (by simp)] at hp
      exact hparts p hp
    · rw [if_pos hne] at hp
      rcases List.mem_append.1 hp with hm | hm
      · exact hparts p hm
      · rw [List.mem_singleton.1 hm]
        rcases hcur with h0 | ⟨pre, hpre, hlen⟩
        · exact absurd h0 hne
        · rw [hpre]
          have h1 := stripChars_length_append_nl pre
          have h2 : pre.length + 1 ≤ 1501 := by
            rw [hpre] at hlen; simpa using hlen
          omega
  induction lines with
  | nil =>
    intro current parts _ hcur hparts p hp
    rw [smLoop] at hp
    exact flush current parts hcur hparts p hp
  | cons line rest ih =>
    intro current parts hlines hcur hparts p hp
    rw [smLoop] at hp
    by_cases hcond : current.length + line.length + 1 ≤ 1500
    · rw [if_pos hcond] at hp
      refine ih (current ++ line ++ ['\n']) parts
        (fun l hml => hlines l (by simp [hml])) ?_ hparts p hp
      right
      refine ⟨current ++ line, rfl, ?_⟩
      simp only [List.length_append, List.length_cons, List.length_nil]
      omega
    · rw [if_neg hcond] at hp
      refine ih (line ++ ['\n'])
        (if current ≠ [] then parts ++ [stripChars current] else parts)
        (fun l hml => hlines l (by simp [hml])) ?_
        (flush current parts hcur hparts) p hp
      right
      refine ⟨line, rfl, ?_⟩
      have := hlines line (by simp)
      simp only [List.length_append, List.length_cons, List.length_nil]
      omega

theorem split_message_bound (msg : Txt)
    (h : ∀ l ∈ splitOnNl msg, l.length ≤ 1500) :
    ∀ chunk ∈ split_message msg, chunk.length ≤ 1500 := by
  intro chunk hchunk
  unfold split_message at hchunk
  by_cases hlen : msg.length ≤ 1500
  · rw [if_pos hlen] at hchunk
    rw [List.mem_singleton.1 hchunk]
    exact hlen
  · rw [if_neg hlen] at hchunk
    exact smLoop_bound (splitOnNl msg) [] [] h (Or.inl rfl)
      (by intro p hp; simp at hp) chunk hchunk

theorem split_message_join (msg : Txt)
    (h : ∀ l ∈ splitOnNl msg, cleanLine l) :
    ((split_message msg).map splitOnNl).flatten = splitOnNl msg := by
  unfold split_message
  by_cases hlen : msg.length ≤ 1500
  · rw [if_pos hlen]; simp
  · rw [if_neg hlen]
    have := smLoop_join (splitOnNl msg) [] [] h (by intro l hl; simp at hl)
    simpa [joinNl] using this

theorem sendLoop_eq (gw : Txt → Bool) (ps : List Txt) :
    sendLoop gw ps =
      (match ps.dropWhile gw with
        | [] => (true, ps)
        | p :: _ => (false, ps.takeWhile gw ++ [p])) := by
  induction ps with
  | nil => rfl
  | cons p rest ih =>
    by_cases hp : gw p
    · rw [sendLoop, if_pos hp, ih, List.dropWhile_cons_of_pos hp,
        List.takeWhile_cons_of_pos hp]
      cases hdrop : rest.dropWhile gw with
      | nil => rfl
      | cons q t => rfl
    · rw [sendLoop, if_neg hp, List.dropWhile_cons_of_neg hp,
        List.takeWhile_cons_of_neg hp]
      rfl

theorem split_message_single_line (l : Txt) (hnl : '\n' ∉ l)
    (hlong : ¬ l.length ≤ 1500) (hclean : cleanLine l) :
    split_message l = [l] := by
  have hstrip : stripChars (l ++ ['\n']) = l := by
    have h1 : stripChars (joinNl [l]) = joinLines [l] :=
      stripChars_joinNl [l]
        (by
          intro x hx
          rw [List.mem_singleton.1 hx]
          exact hclean)
        (List.cons_ne_nil _ _)
    have h2 : joinNl [l] = l ++ ['\n'] := by simp [joinNl]
    rw [h2] at h1
    exact h1
  unfold split_message
  rw [if_neg hlong, splitOnNl_no_nl l hnl]
  rw [smLoop, if_neg (by simp only [List.length_nil]; omega)]
  rw [if_neg (by simp)]
  rw [smLoop, if_pos (by simp)]
  rw [hstrip]
  rfl

/-- C9 counterexample: a message that is a single 1501-character line
exceeds the threshold, is split, and the resulting sole chunk is 1501
characters long — longer than the claimed 1500-character bound. -/
theorem c9_counterexample :
    split_message (List.replicate 1501 'a') = [List.replicate 1501 'a'] ∧
    1500 < (List.replicate 1501 'a').length := by
  constructor
  · apply split_message_single_line
    · intro hm
      exact absurd (List.eq_of_mem_replicate hm) (by decide)
    · rw [List.length_replicate]
      omega
    · constructor
      · intro h
        have hl := congrArg List.length h
        rw [List.length_replicate, List.length_nil] at hl
        exact absurd hl (by decide)
      · intro c hc
        rw [List.eq_of_mem_replicate hc]
        rfl
  · rw [List.length_replicate]
    omega

/-- C9 (amended): messages over 1500 characters are split at line
boundaries into ordered chunks; every chunk is at most 1500 characters
PROVIDED every line of the message is at most 1500 characters (a single
longer line becomes one oversized chunk — see the counterexample); for
whitespace-clean lines the chunks partition the original lines in order;
each chunk is sent as a separate call in order, and a failing chunk aborts
the remaining chunks of that message. -/
theorem c9_chunked_send (msg : Txt) (gw : Txt → Bool)
    (hlen : ∀ l ∈ splitOnNl msg, l.length ≤ 1500)
    (hclean : ∀ l ∈ splitOnNl msg, cleanLine l) :
    (∀ chunk ∈ split_message msg, chunk.length ≤ 1500) ∧
    ((split_message msg).map splitOnNl).flatten = splitOnNl msg ∧
    send_whatsapp_message gw msg =
      (match (split_message msg).dropWhile gw with
        | [] => (true, split_message msg)
        | p :: _ => (false, (split_message msg).takeWhile gw ++ [p])) :=
  ⟨split_message_bound msg hlen, split_message_join msg hclean,
    sendLoop_eq gw (split_message msg)⟩

/-- Witness for C9 (amended) on a two-line message with a failing
gateway. -/
theorem c9_chunked_send_witness :
    ((∀ l ∈ splitOnNl "hola\nmundo".data, l.length ≤ 1500) ∧
      (∀ l ∈ splitOnNl "hola\nmundo".data, cleanLine l)) ∧
    ((∀ chunk ∈ split_message "hola\nmundo".data, chunk.length ≤ 1500) ∧
      ((split_message "hola\nmundo".data).map splitOnNl).flatten =
        splitOnNl "hola\nmundo".data ∧
      send_whatsapp_message (fun _ => false) "hola\nmundo".data =
        (match (split_message "hola\nmundo".data).dropWhile
            (fun _ => false) with
          | [] => (true, split_message "hola\nmundo".data)
          | p :: _ => (false, (split_message "hola\nmundo".data).takeWhile
              (fun _ => false) ++ [p]))) :=
  ⟨⟨by decide, by decide⟩,
    c9_chunked_send "hola\nmundo".data (fun _ => false) (by decide)
      (by decide)⟩

end Assistant
